import Mathlib

/-!
Verification of the image-processing pipeline of `server.js`
(Akhlaquea01/img-upscale).

The server code is shallowly embedded as pure Lean functions.  Side effects
are made explicit:

* the server-managed filesystem (the `input`, `output`, `temp`, `uploads`
  directories) is a list of paths that currently exist;
* the behaviour of the two external collaborators (the Upscayl executor
  process and the sharp image library) and of the probe
  `fs.existsSync(UPSCAYL_BIN)` is captured by an `Env` record that fixes,
  for one run, what each external call would do;
* every run returns, besides the final filesystem, the ordered list of
  emitted `progress` events, the ordered list of executor invocations
  (`spawn` calls), the path handed to the sharp library (if stage 2 was
  reached), and the ordered trace of filesystem mutations.
-/

namespace ImgUpscale

/-- The four directories created by the server (`DIRS` in `server.js`). -/
inductive Dir where
  | input
  | output
  | temp
  | uploads
deriving DecidableEq, Repr

/-- A path inside one of the server's directories: `path.join(DIRS.d, name)`.
The common `__dirname` prefix is elided. -/
structure FPath where
  dir : Dir
  name : String
deriving DecidableEq, Repr

/-- Printable form of an `FPath`, standing for the absolute path string that
`server.js` passes to external programs. -/
def dirString : Dir → String
  | Dir.input => "input"
  | Dir.output => "output"
  | Dir.temp => "temp"
  | Dir.uploads => "uploads"

def pathStr (p : FPath) : String := dirString p.dir ++ "/" ++ p.name

/-- The server-managed filesystem: the list of files that currently exist. -/
abbrev FS := List FPath

/-- `fs.existsSync` on a managed path. -/
def fsHas (p : FPath) (fs : FS) : Bool := fs.any (fun q => q == p)

/-- Writing a file: afterwards exactly one entry with this path exists
(an existing file at the same path is overwritten). -/
def fsWrite (p : FPath) (fs : FS) : FS := p :: fs.filter (fun q => !(q == p))

/-- `fs.unlinkSync`: removes the file at this path. -/
def fsUnlink (p : FPath) (fs : FS) : FS := fs.filter (fun q => !(q == p))

/-- Number of filesystem entries at exactly this path. -/
def fsCount (p : FPath) (fs : FS) : Nat := fs.count p

/-- `path.parse(fileName).name` on the character list: everything before the
last dot, except that a dot at position 0 does not start an extension
(Node.js `path.parse` semantics, e.g. `".bashrc"` has no extension). -/
def stemChars (cs : List Char) : List Char :=
  match cs.reverse.findIdx? (fun c => c = '.') with
  | none => cs
  | some j =>
      let i := cs.length - 1 - j
      if i = 0 then cs else cs.take i

/-- `path.parse(fileName).name`: the file name without its extension. -/
def stem (s : String) : String := String.mk (stemChars s.data)

/-- The per-batch settings `{ upscale: boolean, model: string }`; `model` is
`none` when the request body carries no model field. -/
structure Settings where
  upscale : Bool
  model : Option String
deriving DecidableEq, Repr

/-- The process-wide mutable configuration: `UPSCAYL_BIN` and `MODELS_PATH`. -/
structure Config where
  upscaylBin : String
  modelsPath : String
deriving DecidableEq, Repr

/-- JavaScript `a || d` for an optional string field `a`: the default is used
when the field is absent or the empty string (both are falsy). -/
def jsOr (a : Option String) (d : String) : String :=
  match a with
  | none => d
  | some s => if s = "" then d else s

/-- A `progress` event emitted over the socket. -/
inductive Event where
  | start (file : String)
  | step (file : String) (message : String)
  | complete (file : String) (output : String)
  | error (file : String) (message : String)
deriving DecidableEq, Repr

def isErrorEv : Event → Bool
  | Event.error _ _ => true
  | _ => false

def isStepEv (f : String) : Event → Bool
  | Event.step f' _ => f' == f
  | _ => false

def isTerminalEv (f : String) : Event → Bool
  | Event.complete f' _ => f' == f
  | Event.error f' _ => f' == f
  | _ => false

/-- One invocation of the external Upscayl executor (`spawn(UPSCAYL_BIN, args)`). -/
structure SpawnCall where
  bin : String
  args : List String
deriving DecidableEq, Repr

/-- A recorded filesystem mutation, in program order. -/
inductive FsOp where
  | write (p : FPath)
  | unlink (p : FPath)
deriving DecidableEq, Repr

/-- Behaviour of the external world during one run:
`upscaylExists` is the result of `fs.existsSync(UPSCAYL_BIN)`;
`exitCode` is the exit code the executor would report if spawned;
`leftoverTemp` says whether a failing executor still wrote its output file;
the three `Option String` fields are the error messages thrown by the three
sharp calls (`metadata()`, `toBuffer()`, `toFile()`), `none` meaning the call
succeeds. -/
structure Env where
  upscaylExists : Bool
  exitCode : Nat
  leftoverTemp : Bool
  metadataErr : Option String
  cleanErr : Option String
  encodeErr : Option String
deriving DecidableEq, Repr

/-- Result of one `processImage` run: final filesystem, emitted events,
executor invocations, the path the sharp stage read (if reached), and the
trace of filesystem mutations. -/
structure RunResult where
  fs : FS
  events : List Event
  spawns : List SpawnCall
  sharpSource : Option FPath
  ops : List FsOp
deriving DecidableEq, Repr

/-- The argument vector built for the executor in `server.js` lines 140-147. -/
def upscaylArgs (cfg : Config) (settings : Settings) (inputPath tempUpscaledPath : FPath) :
    List String :=
  ["-i", pathStr inputPath,
   "-o", pathStr tempUpscaledPath,
   "-s", "4",
   "-m", cfg.modelsPath,
   "-n", jsOr settings.model "upscayl-standard-4x",
   "-f", "png"]

/-- The cleanup stage (`server.js` lines 199-206) applied to the filesystem:
delete the intermediate upscaled file if it exists, then delete the input
file if it exists. -/
def cleanupFS (inputPath tempUpscaledPath : FPath) (fs : FS) : FS :=
  let fs3 := if fsHas tempUpscaledPath fs then fsUnlink tempUpscaledPath fs else fs
  if fsHas inputPath fs3 then fsUnlink inputPath fs3 else fs3

/-- The filesystem mutations performed by the cleanup stage, in order. -/
def cleanupOps (inputPath tempUpscaledPath : FPath) (fs : FS) : List FsOp :=
  let fs3 := if fsHas tempUpscaledPath fs then fsUnlink tempUpscaledPath fs else fs
  (if fsHas tempUpscaledPath fs then [FsOp.unlink tempUpscaledPath] else [])
    ++ (if fsHas inputPath fs3 then [FsOp.unlink inputPath] else [])

/-- Stages 2-5 of `processImage` (`server.js` lines 160-209): the sharp
pipeline on `currentPath`, then temp/input cleanup and the `complete` event;
any sharp failure falls to the `catch` block, which emits the `error` event. -/
def sharpAndFinish (env : Env) (fileName : String)
    (inputPath tempUpscaledPath finalOutputPath currentPath : FPath)
    (fs1 : FS) (evs : List Event) (spawns : List SpawnCall) (ops1 : List FsOp) :
    RunResult :=
  let evs2 := evs ++ [Event.step fileName "Optimizing & Tagging..."]
  match env.metadataErr with
  | some m => ⟨fs1, evs2 ++ [Event.error fileName m], spawns, some currentPath, ops1⟩
  | none =>
    match env.cleanErr with
    | some m => ⟨fs1, evs2 ++ [Event.error fileName m], spawns, some currentPath, ops1⟩
    | none =>
      match env.encodeErr with
      | some m => ⟨fs1, evs2 ++ [Event.error fileName m], spawns, some currentPath, ops1⟩
      | none =>
        ⟨cleanupFS inputPath tempUpscaledPath (fsWrite finalOutputPath fs1),
         evs2 ++ [Event.complete fileName ("/output/" ++ finalOutputPath.name)],
         spawns, some currentPath,
         ops1 ++ FsOp.write finalOutputPath
           :: cleanupOps inputPath tempUpscaledPath (fsWrite finalOutputPath fs1)⟩

/-- `processImage(fileName, settings)` (`server.js` lines 117-215).
Paths are fixed at entry; a `start` event is emitted; if upscaling is
requested the executor is skipped with a warning `step` event when the
binary is absent, otherwise spawned and awaited — exit code 0 writes the
intermediate file and redirects the pipeline to it, any other exit code
throws `Upscayl exited with code <code>`, caught by the handler that emits
the `error` event.  The sharp stage, cleanup and terminal event are
`sharpAndFinish`. -/
def processImage (env : Env) (cfg : Config) (fileName : String) (settings : Settings)
    (fs0 : FS) : RunResult :=
  let inputPath : FPath := ⟨Dir.input, fileName⟩
  let tempUpscaledPath : FPath := ⟨Dir.temp, fileName⟩
  let finalOutputPath : FPath := ⟨Dir.output, stem fileName ++ ".jpg"⟩
  let evs0 := [Event.start fileName]
  if settings.upscale then
    if env.upscaylExists = false then
      sharpAndFinish env fileName inputPath tempUpscaledPath finalOutputPath inputPath fs0
        (evs0 ++ [Event.step fileName "⚠️ Upscayl not found - skipping upscaling"]) [] []
    else
      let call : SpawnCall := ⟨cfg.upscaylBin, upscaylArgs cfg settings inputPath tempUpscaledPath⟩
      let evs1 := evs0 ++ [Event.step fileName "Upscaling..."]
      if env.exitCode = 0 then
        sharpAndFinish env fileName inputPath tempUpscaledPath finalOutputPath tempUpscaledPath
          (fsWrite tempUpscaledPath fs0) evs1 [call] [FsOp.write tempUpscaledPath]
      else
        ⟨(if env.leftoverTemp then fsWrite tempUpscaledPath fs0 else fs0),
         evs1 ++ [Event.error fileName ("Upscayl exited with code " ++ toString env.exitCode)],
         [call], none,
         (if env.leftoverTemp then [FsOp.write tempUpscaledPath] else [])⟩
  else
    sharpAndFinish env fileName inputPath tempUpscaledPath finalOutputPath inputPath fs0 evs0 [] []

/-- The first failure raised by the sharp stage under `env` (the three sharp
calls are made in order), `none` when they all succeed. -/
def sharpFailure (env : Env) : Option String :=
  match env.metadataErr with
  | some m => some m
  | none =>
    match env.cleanErr with
    | some m => some m
    | none => env.encodeErr

/-- The first failure a run of `processImage` raises under `env`, in pipeline
order (executor exit, then the three sharp calls); `none` when the run
succeeds. -/
def pipelineFailure (env : Env) (settings : Settings) : Option String :=
  if settings.upscale && env.upscaylExists && !(env.exitCode == 0) then
    some ("Upscayl exited with code " ++ toString env.exitCode)
  else sharpFailure env

/-- Suffix test on character lists. -/
def suffixMatch (suffix cs : List Char) : Bool :=
  decide (suffix.length ≤ cs.length) && cs.drop (cs.length - suffix.length) == suffix

/-- The regex `/\.(png|jpg|jpeg|webp)$/i` of the batch dispatcher: the name
ends, case-insensitively, in one of the four recognized image extensions. -/
def isImageExt (f : String) : Bool :=
  let l := f.data.map Char.toLower
  suffixMatch ".png".data l || suffixMatch ".jpg".data l
    || suffixMatch ".jpeg".data l || suffixMatch ".webp".data l

/-- `fs.readdirSync(DIRS.input)`: the names of the files in the input
directory, in filesystem order. -/
def readdirInput (fs : FS) : List String :=
  (fs.filter (fun p => p.dir == Dir.input)).map (fun p => p.name)

/-- Reply of `POST /api/process`: `{status: 'started', count}`. -/
structure ProcessReply where
  status : String
  count : Nat
deriving DecidableEq, Repr

/-- Sequential batch loop (`for ... await processImage` in the handler):
each file is fully processed, its filesystem effects threaded into the next
file's run, and its events placed before the next file's events. -/
def runBatch (env : Env) (cfg : Config) (settings : Settings) (files : List String)
    (fs : FS) : FS × List Event :=
  match files with
  | [] => (fs, [])
  | f :: rest =>
      let r := processImage env cfg f settings fs
      let t := runBatch env cfg settings rest r.fs
      (t.1, r.events ++ t.2)

/-- Result of the `POST /api/process` handler: the resolved file list, the
immediate JSON reply, and the filesystem/events of the ensuing batch. -/
structure BatchResult where
  files : List String
  reply : ProcessReply
  fs : FS
  events : List Event
deriving DecidableEq, Repr

/-- `POST /api/process` (`server.js` lines 88-108): `filename === 'all'`
resolves to the extension-filtered input listing, any other string to the
one-element list of itself; the reply is sent before the batch loop runs. -/
def postProcess (env : Env) (cfg : Config) (filename : String) (settings : Settings)
    (fs0 : FS) : BatchResult :=
  let files := if filename = "all"
    then (readdirInput fs0).filter isImageExt
    else [filename]
  let reply : ProcessReply := ⟨"started", files.length⟩
  let t := runBatch env cfg settings files fs0
  ⟨files, reply, t.1, t.2⟩

/-- Reply of `POST /api/config`. -/
structure ConfigReply where
  success : Bool
  upscaylBin : String
  modelsPath : String
deriving DecidableEq, Repr

/-- Node's `path.dirname` (forward-slash separator): everything before the
last separator, `"."` when there is none, `"/"` for a file at the root. -/
def pathDirname (p : String) : String :=
  match p.data.reverse.findIdx? (fun c => c = '/') with
  | none => "."
  | some j =>
      let i := p.data.length - 1 - j
      if i = 0 then "/" else String.mk (p.data.take i)

/-- Node's `path.join` of a directory and one component. -/
def pathJoin (a b : String) : String := a ++ "/" ++ b

/-- `POST /api/config` (`server.js` lines 53-63): if the body carries a
truthy `path` it becomes the new `UPSCAYL_BIN` and the models directory is
re-derived (`dirname(dirname(bin)) ++ /models`); the reply always reports
success together with the current values. -/
def postConfig (cfg : Config) (bodyPath : Option String) : Config × ConfigReply :=
  let cfg2 := match bodyPath with
    | none => cfg
    | some p =>
        if p = "" then cfg
        else ⟨p, pathJoin (pathDirname (pathDirname p)) "models"⟩
  (cfg2, ⟨true, cfg2.upscaylBin, cfg2.modelsPath⟩)

/-! ### Filesystem lemmas -/

theorem fsHas_iff_mem (p : FPath) (fs : FS) : fsHas p fs = true ↔ p ∈ fs := by
  simp [fsHas]

theorem fsHas_write_self (p : FPath) (fs : FS) : fsHas p (fsWrite p fs) = true := by
  simp [fsHas, fsWrite]

theorem mem_fsWrite {p q : FPath} {fs : FS} :
    p ∈ fsWrite q fs ↔ p = q ∨ (p ∈ fs ∧ p ≠ q) := by
  simp [fsWrite, List.mem_filter]

theorem mem_fsUnlink {p q : FPath} {fs : FS} :
    p ∈ fsUnlink q fs ↔ p ∈ fs ∧ p ≠ q := by
  simp [fsUnlink, List.mem_filter]

theorem fsHas_write_ne (p q : FPath) (fs : FS) (h : p ≠ q) :
    fsHas p (fsWrite q fs) = fsHas p fs := by
  rw [Bool.eq_iff_iff, fsHas_iff_mem, fsHas_iff_mem, mem_fsWrite]
  constructor
  · rintro (rfl | ⟨hm, _⟩)
    · exact (h rfl).elim
    · exact hm
  · intro hm
    exact Or.inr ⟨hm, h⟩

theorem fsHas_unlink_self (p : FPath) (fs : FS) : fsHas p (fsUnlink p fs) = false := by
  simp [fsHas, fsUnlink, List.mem_filter]

theorem fsHas_unlink_ne (p q : FPath) (fs : FS) (h : p ≠ q) :
    fsHas p (fsUnlink q fs) = fsHas p fs := by
  rw [Bool.eq_iff_iff, fsHas_iff_mem, fsHas_iff_mem, mem_fsUnlink]
  exact ⟨fun hm => hm.1, fun hm => ⟨hm, h⟩⟩

theorem fsCount_write_self (p : FPath) (fs : FS) : fsCount p (fsWrite p fs) = 1 := by
  simp [fsCount, fsWrite, List.count_cons_self]
  rw [List.count_eq_zero]
  simp [List.mem_filter]

theorem fsCount_unlink_ne (p q : FPath) (fs : FS) (h : p ≠ q) :
    fsCount p (fsUnlink q fs) = fsCount p fs := by
  simp [fsCount, fsUnlink]
  rw [List.count_filter]
  simp [h]

/-- After cleanup the input file is gone, whatever the initial state was. -/
theorem fsHas_cleanupFS_input (ip tp : FPath) (fs : FS) :
    fsHas ip (cleanupFS ip tp fs) = false := by
  unfold cleanupFS
  cases h3 : fsHas ip (if fsHas tp fs then fsUnlink tp fs else fs) with
  | true => simp [h3, fsHas_unlink_self]
  | false => simp [h3]

/-- Cleanup does not touch paths other than the input and temp paths. -/
theorem fsCount_cleanupFS_ne (ip tp p : FPath) (fs : FS) (hip : p ≠ ip) (htp : p ≠ tp) :
    fsCount p (cleanupFS ip tp fs) = fsCount p fs := by
  unfold cleanupFS
  by_cases h1 : fsHas tp fs = true
  · rw [if_pos h1]
    dsimp only
    by_cases h2 : fsHas ip (fsUnlink tp fs) = true
    · rw [if_pos h2, fsCount_unlink_ne _ _ _ hip, fsCount_unlink_ne _ _ _ htp]
    · rw [if_neg h2, fsCount_unlink_ne _ _ _ htp]
  · rw [if_neg h1]
    dsimp only
    by_cases h2 : fsHas ip fs = true
    · rw [if_pos h2, fsCount_unlink_ne _ _ _ hip]
    · rw [if_neg h2]

/-! ### Characterization of the sharp stage -/

theorem sharpFailure_none (env : Env) (h : sharpFailure env = none) :
    env.metadataErr = none ∧ env.cleanErr = none ∧ env.encodeErr = none := by
  unfold sharpFailure at h
  cases hm : env.metadataErr with
  | some m => rw [hm] at h; exact absurd h (by simp)
  | none =>
    rw [hm] at h
    cases hc : env.cleanErr with
    | some m => rw [hc] at h; exact absurd h (by simp)
    | none =>
      rw [hc] at h
      exact ⟨rfl, rfl, h⟩

/-- When all three sharp calls succeed, the tail of the pipeline writes the
output, cleans up and emits the `complete` event. -/
theorem sharpAndFinish_success (env : Env) (f : String) (ip tp op cp : FPath)
    (fs1 : FS) (evs : List Event) (sp : List SpawnCall) (ops1 : List FsOp)
    (hm : env.metadataErr = none) (hc : env.cleanErr = none) (he : env.encodeErr = none) :
    sharpAndFinish env f ip tp op cp fs1 evs sp ops1 =
      ⟨cleanupFS ip tp (fsWrite op fs1),
       evs ++ [Event.step f "Optimizing & Tagging...",
               Event.complete f ("/output/" ++ op.name)],
       sp, some cp,
       ops1 ++ FsOp.write op :: cleanupOps ip tp (fsWrite op fs1)⟩ := by
  unfold sharpAndFinish
  rw [hm, hc, he]
  simp

/-- The error events of the sharp stage are exactly the first sharp failure,
turned into one `error` event. -/
theorem sharpAndFinish_filter_error (env : Env) (f : String) (ip tp op cp : FPath)
    (fs1 : FS) (evs : List Event) (sp : List SpawnCall) (ops1 : List FsOp)
    (hevs : evs.filter isErrorEv = []) :
    (sharpAndFinish env f ip tp op cp fs1 evs sp ops1).events.filter isErrorEv
      = (sharpFailure env).elim [] (fun m => [Event.error f m]) := by
  cases hm : env.metadataErr with
  | some m =>
    simp [sharpAndFinish, sharpFailure, hm, isErrorEv, List.filter_append, hevs]
  | none =>
    cases hc : env.cleanErr with
    | some m =>
      simp [sharpAndFinish, sharpFailure, hm, hc, isErrorEv, List.filter_append, hevs]
    | none =>
      cases he : env.encodeErr with
      | some m =>
        simp [sharpAndFinish, sharpFailure, hm, hc, he, isErrorEv, List.filter_append, hevs]
      | none =>
        simp [sharpAndFinish, sharpFailure, hm, hc, he, isErrorEv, List.filter_append, hevs]

/-- The sharp stage emits its `step` event and then exactly one terminal
event. -/
theorem sharpAndFinish_shape (env : Env) (f : String) (ip tp op cp : FPath)
    (fs1 : FS) (evs : List Event) (sp : List SpawnCall) (ops1 : List FsOp) :
    ∃ last, (sharpAndFinish env f ip tp op cp fs1 evs sp ops1).events
        = evs ++ [Event.step f "Optimizing & Tagging...", last]
      ∧ isTerminalEv f last = true := by
  cases hm : env.metadataErr with
  | some m => exact ⟨Event.error f m, by simp [sharpAndFinish, hm], by simp [isTerminalEv]⟩
  | none =>
    cases hc : env.cleanErr with
    | some m =>
      exact ⟨Event.error f m, by simp [sharpAndFinish, hm, hc], by simp [isTerminalEv]⟩
    | none =>
      cases he : env.encodeErr with
      | some m =>
        exact ⟨Event.error f m, by simp [sharpAndFinish, hm, hc, he], by simp [isTerminalEv]⟩
      | none =>
        exact ⟨Event.complete f ("/output/" ++ op.name),
          by simp [sharpAndFinish, hm, hc, he], by simp [isTerminalEv]⟩

theorem sharpAndFinish_success_fs (env : Env) (f : String) (ip tp op cp : FPath)
    (fs1 : FS) (evs : List Event) (sp : List SpawnCall) (ops1 : List FsOp)
    (hm : env.metadataErr = none) (hc : env.cleanErr = none) (he : env.encodeErr = none) :
    (sharpAndFinish env f ip tp op cp fs1 evs sp ops1).fs
      = cleanupFS ip tp (fsWrite op fs1) := by
  rw [sharpAndFinish_success env f ip tp op cp fs1 evs sp ops1 hm hc he]

theorem sharpAndFinish_success_events (env : Env) (f : String) (ip tp op cp : FPath)
    (fs1 : FS) (evs : List Event) (sp : List SpawnCall) (ops1 : List FsOp)
    (hm : env.metadataErr = none) (hc : env.cleanErr = none) (he : env.encodeErr = none) :
    (sharpAndFinish env f ip tp op cp fs1 evs sp ops1).events
      = evs ++ [Event.step f "Optimizing & Tagging...",
                Event.complete f ("/output/" ++ op.name)] := by
  rw [sharpAndFinish_success env f ip tp op cp fs1 evs sp ops1 hm hc he]

theorem sharpAndFinish_success_ops (env : Env) (f : String) (ip tp op cp : FPath)
    (fs1 : FS) (evs : List Event) (sp : List SpawnCall) (ops1 : List FsOp)
    (hm : env.metadataErr = none) (hc : env.cleanErr = none) (he : env.encodeErr = none) :
    (sharpAndFinish env f ip tp op cp fs1 evs sp ops1).ops
      = ops1 ++ FsOp.write op :: cleanupOps ip tp (fsWrite op fs1) := by
  rw [sharpAndFinish_success env f ip tp op cp fs1 evs sp ops1 hm hc he]

theorem sharpAndFinish_success_spawns (env : Env) (f : String) (ip tp op cp : FPath)
    (fs1 : FS) (evs : List Event) (sp : List SpawnCall) (ops1 : List FsOp)
    (hm : env.metadataErr = none) (hc : env.cleanErr = none) (he : env.encodeErr = none) :
    (sharpAndFinish env f ip tp op cp fs1 evs sp ops1).spawns = sp := by
  rw [sharpAndFinish_success env f ip tp op cp fs1 evs sp ops1 hm hc he]

theorem sharpAndFinish_success_sharpSource (env : Env) (f : String) (ip tp op cp : FPath)
    (fs1 : FS) (evs : List Event) (sp : List SpawnCall) (ops1 : List FsOp)
    (hm : env.metadataErr = none) (hc : env.cleanErr = none) (he : env.encodeErr = none) :
    (sharpAndFinish env f ip tp op cp fs1 evs sp ops1).sharpSource = some cp := by
  rw [sharpAndFinish_success env f ip tp op cp fs1 evs sp ops1 hm hc he]

/-- Core facts about a successful run (`pipelineFailure env s = none`):
a `complete` event is emitted, the input file is gone, exactly one copy of
the output file exists, and the output write precedes any deletion of the
input file in the mutation trace. -/
theorem processImage_success_core (env : Env) (cfg : Config) (f : String) (s : Settings)
    (fs0 : FS) (h : pipelineFailure env s = none) :
    (∃ out, Event.complete f out ∈ (processImage env cfg f s fs0).events)
    ∧ fsHas ⟨Dir.input, f⟩ (processImage env cfg f s fs0).fs = false
    ∧ fsCount ⟨Dir.output, stem f ++ ".jpg"⟩ (processImage env cfg f s fs0).fs = 1
    ∧ ∃ l1 l2, (processImage env cfg f s fs0).ops
          = l1 ++ FsOp.write ⟨Dir.output, stem f ++ ".jpg"⟩ :: l2
        ∧ FsOp.unlink ⟨Dir.input, f⟩ ∉ l1 := by
  have hop : (⟨Dir.output, stem f ++ ".jpg"⟩ : FPath) ≠ ⟨Dir.input, f⟩ := by simp
  have hot : (⟨Dir.output, stem f ++ ".jpg"⟩ : FPath) ≠ ⟨Dir.temp, f⟩ := by simp
  unfold pipelineFailure at h
  by_cases hcond : (s.upscale && env.upscaylExists && !(env.exitCode == 0)) = true
  · rw [if_pos hcond] at h
    exact absurd h (by simp)
  · rw [if_neg hcond] at h
    obtain ⟨hm, hcl, he⟩ := sharpFailure_none env h
    obtain ⟨up, mo⟩ := s
    cases up with
    | false =>
      simp only [processImage]
      rw [if_neg (by simp)]
      rw [sharpAndFinish_success_fs _ _ _ _ _ _ _ _ _ _ hm hcl he,
          sharpAndFinish_success_events _ _ _ _ _ _ _ _ _ _ hm hcl he,
          sharpAndFinish_success_ops _ _ _ _ _ _ _ _ _ _ hm hcl he]
      refine ⟨⟨"/output/" ++ (stem f ++ ".jpg"), by simp⟩,
        fsHas_cleanupFS_input _ _ _, ?_, [], _, rfl, by simp⟩
      rw [fsCount_cleanupFS_ne _ _ _ _ hop hot, fsCount_write_self]
    | true =>
      cases hue : env.upscaylExists with
      | false =>
        simp only [processImage]
        rw [if_pos (by simp), if_pos (by simp [hue])]
        rw [sharpAndFinish_success_fs _ _ _ _ _ _ _ _ _ _ hm hcl he,
            sharpAndFinish_success_events _ _ _ _ _ _ _ _ _ _ hm hcl he,
            sharpAndFinish_success_ops _ _ _ _ _ _ _ _ _ _ hm hcl he]
        refine ⟨⟨"/output/" ++ (stem f ++ ".jpg"), by simp⟩,
          fsHas_cleanupFS_input _ _ _, ?_, [], _, rfl, by simp⟩
        rw [fsCount_cleanupFS_ne _ _ _ _ hop hot, fsCount_write_self]
      | true =>
        have hec : env.exitCode = 0 := by
          by_contra hne
          exact hcond (by simp [hue, hne])
        simp only [processImage]
        rw [if_pos (by simp), if_neg (by simp [hue]), if_pos hec]
        rw [sharpAndFinish_success_fs _ _ _ _ _ _ _ _ _ _ hm hcl he,
            sharpAndFinish_success_events _ _ _ _ _ _ _ _ _ _ hm hcl he,
            sharpAndFinish_success_ops _ _ _ _ _ _ _ _ _ _ hm hcl he]
        refine ⟨⟨"/output/" ++ (stem f ++ ".jpg"), by simp⟩,
          fsHas_cleanupFS_input _ _ _, ?_, [FsOp.write ⟨Dir.temp, f⟩], _, rfl, by simp⟩
        rw [fsCount_cleanupFS_ne _ _ _ _ hop hot, fsCount_write_self]

/-! ### Claim theorems -/

/-- C1: `processImage` is a total function of its inputs (no exception
reaches the caller), and the `error` events of a run are exactly the first
failure raised during its execution, converted into one `error` event
carrying that failure's message — no failure, no `error` event. -/
theorem processImage_catches_all_failures (env : Env) (cfg : Config) (f : String)
    (s : Settings) (fs0 : FS) :
    (processImage env cfg f s fs0).events.filter isErrorEv
      = (pipelineFailure env s).elim [] (fun m => [Event.error f m]) := by
  obtain ⟨up, mo⟩ := s
  have hin : [Event.start f].filter isErrorEv = [] := by simp [isErrorEv]
  have hw : ([Event.start f]
      ++ [Event.step f "⚠️ Upscayl not found - skipping upscaling"]).filter isErrorEv = [] := by
    simp [isErrorEv]
  have hu : ([Event.start f] ++ [Event.step f "Upscaling..."]).filter isErrorEv = [] := by
    simp [isErrorEv]
  cases up with
  | false =>
    simp only [processImage]
    rw [if_neg (by simp)]
    rw [sharpAndFinish_filter_error _ _ _ _ _ _ _ _ _ _ hin]
    simp [pipelineFailure]
  | true =>
    cases hue : env.upscaylExists with
    | false =>
      simp only [processImage]
      rw [if_pos (by simp), if_pos (by simp [hue])]
      rw [sharpAndFinish_filter_error _ _ _ _ _ _ _ _ _ _ hw]
      simp [pipelineFailure, hue]
    | true =>
      by_cases hec : env.exitCode = 0
      · simp only [processImage]
        rw [if_pos (by simp), if_neg (by simp [hue]), if_pos hec]
        rw [sharpAndFinish_filter_error _ _ _ _ _ _ _ _ _ _ hu]
        simp [pipelineFailure, hue, hec]
      · simp only [processImage]
        rw [if_pos (by simp), if_neg (by simp [hue]), if_neg hec]
        simp [pipelineFailure, hue, hec, isErrorEv]

/-- C2: every run of `processImage` emits exactly one `start` event first,
then zero or more `step` events, then exactly one terminal event
(`complete` or `error`), and nothing else. -/
theorem processImage_event_sequence (env : Env) (cfg : Config) (f : String)
    (s : Settings) (fs0 : FS) :
    ∃ mid last,
      (processImage env cfg f s fs0).events = Event.start f :: (mid ++ [last])
      ∧ (∀ e ∈ mid, isStepEv f e = true)
      ∧ isTerminalEv f last = true := by
  obtain ⟨up, mo⟩ := s
  cases up with
  | false =>
    obtain ⟨last, hev, hterm⟩ := sharpAndFinish_shape env f ⟨Dir.input, f⟩ ⟨Dir.temp, f⟩
      ⟨Dir.output, stem f ++ ".jpg"⟩ ⟨Dir.input, f⟩ fs0 [Event.start f] [] []
    refine ⟨[Event.step f "Optimizing & Tagging..."], last, ?_, ?_, hterm⟩
    · simp only [processImage]
      rw [if_neg (by simp), hev]
      simp
    · simp [isStepEv]
  | true =>
    cases hue : env.upscaylExists with
    | false =>
      obtain ⟨last, hev, hterm⟩ := sharpAndFinish_shape env f ⟨Dir.input, f⟩ ⟨Dir.temp, f⟩
        ⟨Dir.output, stem f ++ ".jpg"⟩ ⟨Dir.input, f⟩ fs0
        [Event.start f, Event.step f "⚠️ Upscayl not found - skipping upscaling"] [] []
      refine ⟨[Event.step f "⚠️ Upscayl not found - skipping upscaling",
               Event.step f "Optimizing & Tagging..."], last, ?_, ?_, hterm⟩
      · simp only [processImage]
        rw [if_pos (by simp), if_pos (by simp [hue])]
        rw [show ([Event.start f] ++
            [Event.step f "⚠️ Upscayl not found - skipping upscaling"])
          = [Event.start f, Event.step f "⚠️ Upscayl not found - skipping upscaling"] from rfl,
          hev]
        simp
      · simp [isStepEv]
    | true =>
      by_cases hec : env.exitCode = 0
      · obtain ⟨last, hev, hterm⟩ := sharpAndFinish_shape env f ⟨Dir.input, f⟩ ⟨Dir.temp, f⟩
          ⟨Dir.output, stem f ++ ".jpg"⟩ ⟨Dir.temp, f⟩
          (fsWrite ⟨Dir.temp, f⟩ fs0)
          [Event.start f, Event.step f "Upscaling..."]
          [⟨cfg.upscaylBin, upscaylArgs cfg ⟨true, mo⟩ ⟨Dir.input, f⟩ ⟨Dir.temp, f⟩⟩]
          [FsOp.write ⟨Dir.temp, f⟩]
        refine ⟨[Event.step f "Upscaling...",
                 Event.step f "Optimizing & Tagging..."], last, ?_, ?_, hterm⟩
        · simp only [processImage]
          rw [if_pos (by simp), if_neg (by simp [hue]), if_pos hec]
          rw [show ([Event.start f] ++ [Event.step f "Upscaling..."])
            = [Event.start f, Event.step f "Upscaling..."] from rfl, hev]
          simp
        · simp [isStepEv]
      · refine ⟨[Event.step f "Upscaling..."],
          Event.error f ("Upscayl exited with code " ++ toString env.exitCode), ?_, ?_, ?_⟩
        · simp only [processImage]
          rw [if_pos (by simp), if_neg (by simp [hue]), if_neg hec]
          simp
        · simp [isStepEv]
        · simp [isTerminalEv]

/-- C3: after a successful run the input file no longer exists, exactly one
output file named `stem ++ ".jpg"` exists, input and output are never both
present, and in the mutation trace the deletion of the input can only occur
after the write of the final output. -/
theorem processImage_success_artifacts (env : Env) (cfg : Config) (f : String)
    (s : Settings) (fs0 : FS) (h : pipelineFailure env s = none) :
    (∃ out, Event.complete f out ∈ (processImage env cfg f s fs0).events)
    ∧ fsHas ⟨Dir.input, f⟩ (processImage env cfg f s fs0).fs = false
    ∧ fsCount ⟨Dir.output, stem f ++ ".jpg"⟩ (processImage env cfg f s fs0).fs = 1
    ∧ ¬(fsHas ⟨Dir.input, f⟩ (processImage env cfg f s fs0).fs = true
        ∧ fsHas ⟨Dir.output, stem f ++ ".jpg"⟩ (processImage env cfg f s fs0).fs = true)
    ∧ ∃ l1 l2, (processImage env cfg f s fs0).ops
          = l1 ++ FsOp.write ⟨Dir.output, stem f ++ ".jpg"⟩ :: l2
        ∧ FsOp.unlink ⟨Dir.input, f⟩ ∉ l1 := by
  obtain ⟨h1, h2, h3, h4⟩ := processImage_success_core env cfg f s fs0 h
  exact ⟨h1, h2, h3, by simp [h2], h4⟩

/-- Witness for C3: a concrete successful run (no upscaling, benign world)
on input file a.png. -/
theorem processImage_success_artifacts_witness :
    pipelineFailure ⟨true, 0, false, none, none, none⟩ ⟨false, none⟩ = none
    ∧ ((∃ out, Event.complete "a.png" out ∈
          (processImage ⟨true, 0, false, none, none, none⟩ ⟨"bin", "models"⟩ "a.png"
            ⟨false, none⟩ [⟨Dir.input, "a.png"⟩]).events)
      ∧ fsHas ⟨Dir.input, "a.png"⟩
          (processImage ⟨true, 0, false, none, none, none⟩ ⟨"bin", "models"⟩ "a.png"
            ⟨false, none⟩ [⟨Dir.input, "a.png"⟩]).fs = false
      ∧ fsCount ⟨Dir.output, stem "a.png" ++ ".jpg"⟩
          (processImage ⟨true, 0, false, none, none, none⟩ ⟨"bin", "models"⟩ "a.png"
            ⟨false, none⟩ [⟨Dir.input, "a.png"⟩]).fs = 1
      ∧ ¬(fsHas ⟨Dir.input, "a.png"⟩
            (processImage ⟨true, 0, false, none, none, none⟩ ⟨"bin", "models"⟩ "a.png"
              ⟨false, none⟩ [⟨Dir.input, "a.png"⟩]).fs = true
          ∧ fsHas ⟨Dir.output, stem "a.png" ++ ".jpg"⟩
              (processImage ⟨true, 0, false, none, none, none⟩ ⟨"bin", "models"⟩ "a.png"
                ⟨false, none⟩ [⟨Dir.input, "a.png"⟩]).fs = true)
      ∧ ∃ l1 l2, (processImage ⟨true, 0, false, none, none, none⟩ ⟨"bin", "models"⟩ "a.png"
            ⟨false, none⟩ [⟨Dir.input, "a.png"⟩]).ops
            = l1 ++ FsOp.write ⟨Dir.output, stem "a.png" ++ ".jpg"⟩ :: l2
          ∧ FsOp.unlink ⟨Dir.input, "a.png"⟩ ∉ l1) :=
  ⟨rfl, processImage_success_artifacts ⟨true, 0, false, none, none, none⟩ ⟨"bin", "models"⟩
    "a.png" ⟨false, none⟩ [⟨Dir.input, "a.png"⟩] rfl⟩

/-- C4: with upscaling requested, the binary reachable and a nonzero exit
code, exactly one `error` event referencing the exit code is emitted, the
input file's presence is unchanged (not deleted), the sharp stage never
runs, no output is written, no cleanup runs — and an intermediate file the
failing executor produced stays orphaned. -/
theorem processImage_executor_failure (env : Env) (cfg : Config) (f : String)
    (s : Settings) (fs0 : FS) (hu : s.upscale = true) (he : env.upscaylExists = true)
    (hc : env.exitCode ≠ 0) :
    (processImage env cfg f s fs0).events.filter isErrorEv
        = [Event.error f ("Upscayl exited with code " ++ toString env.exitCode)]
    ∧ fsHas ⟨Dir.input, f⟩ (processImage env cfg f s fs0).fs = fsHas ⟨Dir.input, f⟩ fs0
    ∧ (processImage env cfg f s fs0).sharpSource = none
    ∧ FsOp.write ⟨Dir.output, stem f ++ ".jpg"⟩ ∉ (processImage env cfg f s fs0).ops
    ∧ FsOp.unlink ⟨Dir.temp, f⟩ ∉ (processImage env cfg f s fs0).ops
    ∧ (env.leftoverTemp = true →
        fsHas ⟨Dir.temp, f⟩ (processImage env cfg f s fs0).fs = true) := by
  obtain ⟨up, mo⟩ := s
  have hup : up = true := hu
  subst hup
  simp only [processImage]
  rw [if_pos (by simp), if_neg (by simp [he]), if_neg hc]
  refine ⟨by simp [isErrorEv], ?_, rfl, ?_, ?_, ?_⟩
  · show fsHas _ (if env.leftoverTemp then fsWrite ⟨Dir.temp, f⟩ fs0 else fs0) = _
    cases hlt : env.leftoverTemp with
    | true => rw [if_pos rfl, fsHas_write_ne _ _ _ (by simp)]
    | false => rw [if_neg (by simp)]
  · show FsOp.write _ ∉ (if env.leftoverTemp then [FsOp.write ⟨Dir.temp, f⟩] else [])
    cases hlt : env.leftoverTemp with
    | true => rw [if_pos rfl]; simp
    | false => rw [if_neg (by simp)]; simp
  · show FsOp.unlink _ ∉ (if env.leftoverTemp then [FsOp.write ⟨Dir.temp, f⟩] else [])
    cases hlt : env.leftoverTemp with
    | true => rw [if_pos rfl]; simp
    | false => rw [if_neg (by simp)]; simp
  · intro hlt
    show fsHas _ (if env.leftoverTemp then fsWrite ⟨Dir.temp, f⟩ fs0 else fs0) = true
    rw [if_pos hlt, fsHas_write_self]

/-- Witness for C4: a concrete run with exit code 7 and a leftover
intermediate file. -/
theorem processImage_executor_failure_witness :
    ((⟨true, 7, true, none, none, none⟩ : Env).upscaylExists = true
      ∧ (⟨true, 7, true, none, none, none⟩ : Env).exitCode ≠ 0)
    ∧ ((processImage ⟨true, 7, true, none, none, none⟩ ⟨"bin", "models"⟩ "a.png"
          ⟨true, none⟩ [⟨Dir.input, "a.png"⟩]).events.filter isErrorEv
        = [Event.error "a.png" ("Upscayl exited with code "
            ++ toString (⟨true, 7, true, none, none, none⟩ : Env).exitCode)]
      ∧ fsHas ⟨Dir.input, "a.png"⟩
          (processImage ⟨true, 7, true, none, none, none⟩ ⟨"bin", "models"⟩ "a.png"
            ⟨true, none⟩ [⟨Dir.input, "a.png"⟩]).fs
          = fsHas ⟨Dir.input, "a.png"⟩ [⟨Dir.input, "a.png"⟩]
      ∧ (processImage ⟨true, 7, true, none, none, none⟩ ⟨"bin", "models"⟩ "a.png"
          ⟨true, none⟩ [⟨Dir.input, "a.png"⟩]).sharpSource = none
      ∧ FsOp.write ⟨Dir.output, stem "a.png" ++ ".jpg"⟩
          ∉ (processImage ⟨true, 7, true, none, none, none⟩ ⟨"bin", "models"⟩ "a.png"
              ⟨true, none⟩ [⟨Dir.input, "a.png"⟩]).ops
      ∧ FsOp.unlink ⟨Dir.temp, "a.png"⟩
          ∉ (processImage ⟨true, 7, true, none, none, none⟩ ⟨"bin", "models"⟩ "a.png"
              ⟨true, none⟩ [⟨Dir.input, "a.png"⟩]).ops
      ∧ ((⟨true, 7, true, none, none, none⟩ : Env).leftoverTemp = true →
          fsHas ⟨Dir.temp, "a.png"⟩
            (processImage ⟨true, 7, true, none, none, none⟩ ⟨"bin", "models"⟩ "a.png"
              ⟨true, none⟩ [⟨Dir.input, "a.png"⟩]).fs = true)) :=
  ⟨⟨rfl, by decide⟩,
   processImage_executor_failure ⟨true, 7, true, none, none, none⟩ ⟨"bin", "models"⟩
     "a.png" ⟨true, none⟩ [⟨Dir.input, "a.png"⟩] rfl rfl (by decide)⟩

/-- C5: with upscaling requested but the binary absent, and the sharp stage
succeeding, the run emits exactly `start`, the warning `step`, the
optimizing `step` and `complete`; exactly one warning `step` is emitted; the
executor is never spawned; and the sharp stage reads the original input
file. -/
theorem processImage_missing_upscayl_soft_skip (env : Env) (cfg : Config) (f : String)
    (s : Settings) (fs0 : FS) (hu : s.upscale = true) (he : env.upscaylExists = false)
    (hm : env.metadataErr = none) (hc : env.cleanErr = none) (hee : env.encodeErr = none) :
    (processImage env cfg f s fs0).events
        = [Event.start f,
           Event.step f "⚠️ Upscayl not found - skipping upscaling",
           Event.step f "Optimizing & Tagging...",
           Event.complete f ("/output/" ++ (stem f ++ ".jpg"))]
    ∧ ((processImage env cfg f s fs0).events.filter
          (fun e => e == Event.step f "⚠️ Upscayl not found - skipping upscaling")).length = 1
    ∧ (processImage env cfg f s fs0).spawns = []
    ∧ (processImage env cfg f s fs0).sharpSource = some ⟨Dir.input, f⟩ := by
  obtain ⟨up, mo⟩ := s
  have hup : up = true := hu
  subst hup
  have hev : (processImage env cfg f ⟨true, mo⟩ fs0).events
      = [Event.start f,
         Event.step f "⚠️ Upscayl not found - skipping upscaling",
         Event.step f "Optimizing & Tagging...",
         Event.complete f ("/output/" ++ (stem f ++ ".jpg"))] := by
    simp only [processImage]
    rw [if_pos (by simp), if_pos (by simp [he])]
    rw [sharpAndFinish_success_events _ _ _ _ _ _ _ _ _ _ hm hc hee]
    simp
  refine ⟨hev, ?_, ?_, ?_⟩
  · rw [hev]
    simp
  · simp only [processImage]
    rw [if_pos (by simp), if_pos (by simp [he])]
    rw [sharpAndFinish_success_spawns _ _ _ _ _ _ _ _ _ _ hm hc hee]
  · simp only [processImage]
    rw [if_pos (by simp), if_pos (by simp [he])]
    rw [sharpAndFinish_success_sharpSource _ _ _ _ _ _ _ _ _ _ hm hc hee]

/-- Witness for C5: a concrete soft-skip run on b.jpeg with the binary
absent and a benign sharp stage. -/
theorem processImage_missing_upscayl_soft_skip_witness :
    (processImage ⟨false, 0, false, none, none, none⟩ ⟨"bin", "models"⟩ "b.jpeg"
        ⟨true, none⟩ []).events
        = [Event.start "b.jpeg",
           Event.step "b.jpeg" "⚠️ Upscayl not found - skipping upscaling",
           Event.step "b.jpeg" "Optimizing & Tagging...",
           Event.complete "b.jpeg" ("/output/" ++ (stem "b.jpeg" ++ ".jpg"))]
    ∧ ((processImage ⟨false, 0, false, none, none, none⟩ ⟨"bin", "models"⟩ "b.jpeg"
          ⟨true, none⟩ []).events.filter
          (fun e => e == Event.step "b.jpeg" "⚠️ Upscayl not found - skipping upscaling")).length
        = 1
    ∧ (processImage ⟨false, 0, false, none, none, none⟩ ⟨"bin", "models"⟩ "b.jpeg"
        ⟨true, none⟩ []).spawns = []
    ∧ (processImage ⟨false, 0, false, none, none, none⟩ ⟨"bin", "models"⟩ "b.jpeg"
        ⟨true, none⟩ []).sharpSource = some ⟨Dir.input, "b.jpeg"⟩ :=
  processImage_missing_upscayl_soft_skip ⟨false, 0, false, none, none, none⟩
    ⟨"bin", "models"⟩ "b.jpeg" ⟨true, none⟩ [] rfl rfl rfl rfl rfl

theorem sharpAndFinish_spawns_eq (env : Env) (f : String) (ip tp op cp : FPath)
    (fs1 : FS) (evs : List Event) (sp : List SpawnCall) (ops1 : List FsOp) :
    (sharpAndFinish env f ip tp op cp fs1 evs sp ops1).spawns = sp := by
  unfold sharpAndFinish
  cases env.metadataErr <;> cases env.cleanErr <;> cases env.encodeErr <;> rfl

theorem sharpAndFinish_sharpSource_eq (env : Env) (f : String) (ip tp op cp : FPath)
    (fs1 : FS) (evs : List Event) (sp : List SpawnCall) (ops1 : List FsOp) :
    (sharpAndFinish env f ip tp op cp fs1 evs sp ops1).sharpSource = some cp := by
  unfold sharpAndFinish
  cases env.metadataErr <;> cases env.cleanErr <;> cases env.encodeErr <;> rfl

/-- C6: the batch trigger with filename all resolves to the input listing
filtered to the recognized image extensions, replies started with the
resolved count, the reply is independent of any processing outcome, the
events are those of the sequential batch loop (each file fully processed,
its filesystem effects threaded into the next run, before the next file
starts), and with zero matching files no events are emitted. -/
theorem postProcess_all_batch (env : Env) (cfg : Config) (s : Settings) (fs0 : FS) :
    (postProcess env cfg "all" s fs0).files = (readdirInput fs0).filter isImageExt
    ∧ (postProcess env cfg "all" s fs0).reply
        = ⟨"started", ((readdirInput fs0).filter isImageExt).length⟩
    ∧ (∀ env2 : Env, (postProcess env2 cfg "all" s fs0).reply
        = (postProcess env cfg "all" s fs0).reply)
    ∧ (postProcess env cfg "all" s fs0).events
        = (runBatch env cfg s ((readdirInput fs0).filter isImageExt) fs0).2
    ∧ (∀ f rest fs, runBatch env cfg s (f :: rest) fs
        = ((runBatch env cfg s rest (processImage env cfg f s fs).fs).1,
           (processImage env cfg f s fs).events
             ++ (runBatch env cfg s rest (processImage env cfg f s fs).fs).2))
    ∧ ((readdirInput fs0).filter isImageExt = [] →
        (postProcess env cfg "all" s fs0).events = []) := by
  refine ⟨rfl, rfl, fun env2 => rfl, rfl, fun f rest fs => rfl, fun h => ?_⟩
  simp [postProcess, h, runBatch]

/-- Witness for C6: the zero-matching-files batch replies started count 0
and emits nothing. -/
theorem postProcess_all_batch_witness :
    (postProcess ⟨true, 0, false, none, none, none⟩ ⟨"bin", "models"⟩ "all"
        ⟨false, none⟩ []).events = []
    ∧ (postProcess ⟨true, 0, false, none, none, none⟩ ⟨"bin", "models"⟩ "all"
        ⟨false, none⟩ []).reply = ⟨"started", 0⟩ := by
  have h := postProcess_all_batch ⟨true, 0, false, none, none, none⟩ ⟨"bin", "models"⟩
    ⟨false, none⟩ []
  exact ⟨h.2.2.2.2.2 rfl, h.2.1⟩

/-- C7 counterexample: with `settings.model` set to the empty string (a set
value under the spec's `model: string` data model), the executor is invoked
with the default model identifier, not the model name from the settings, so
the fallback is not restricted to the unset case. -/
theorem upscayl_model_arg_empty_string_counterexample :
    Settings.model ⟨true, some ""⟩ = some ""
    ∧ (processImage ⟨true, 0, false, none, none, none⟩ ⟨"bin", "models"⟩ "a.png"
          ⟨true, some ""⟩ []).spawns.map SpawnCall.args
        = [["-i", "input/a.png", "-o", "temp/a.png", "-s", "4", "-m", "models",
            "-n", "upscayl-standard-4x", "-f", "png"]]
    ∧ ("upscayl-standard-4x" : String) ≠ "" := by
  exact ⟨rfl, rfl, by decide⟩

/-- C7 (amended): whenever the executor is invoked it is invoked on the
configured binary with exactly the arguments input path, intermediate
output path, scale factor 4, configured models directory, the model name
from the settings falling back to the fixed default identifier when the
model is unset or the empty string, and output format png; and when an
invocation happened, the pipeline proceeds (on the intermediate file) iff
the exit code is 0. -/
theorem upscayl_invocation_args (env : Env) (cfg : Config) (f : String) (s : Settings)
    (fs0 : FS) :
    (∀ c ∈ (processImage env cfg f s fs0).spawns,
        c.bin = cfg.upscaylBin
        ∧ c.args = ["-i", pathStr ⟨Dir.input, f⟩, "-o", pathStr ⟨Dir.temp, f⟩,
                    "-s", "4", "-m", cfg.modelsPath,
                    "-n", jsOr s.model "upscayl-standard-4x", "-f", "png"])
    ∧ ((processImage env cfg f s fs0).spawns ≠ [] →
        ((processImage env cfg f s fs0).sharpSource = some ⟨Dir.temp, f⟩
          ↔ env.exitCode = 0)) := by
  obtain ⟨up, mo⟩ := s
  cases up with
  | false =>
    simp only [processImage]
    rw [if_neg (by simp)]
    rw [sharpAndFinish_spawns_eq]
    simp
  | true =>
    cases hue : env.upscaylExists with
    | false =>
      simp only [processImage]
      rw [if_pos (by simp), if_pos (by simp [hue])]
      rw [sharpAndFinish_spawns_eq]
      simp
    | true =>
      by_cases hec : env.exitCode = 0
      · simp only [processImage]
        rw [if_pos (by simp), if_neg (by simp [hue]), if_pos hec]
        rw [sharpAndFinish_spawns_eq, sharpAndFinish_sharpSource_eq]
        constructor
        · intro c hc
          rw [List.mem_singleton] at hc
          subst hc
          exact ⟨rfl, by simp [upscaylArgs]⟩
        · intro _
          simp [hec]
      · simp only [processImage]
        rw [if_pos (by simp), if_neg (by simp [hue]), if_neg hec]
        constructor
        · intro c hc
          rw [List.mem_singleton] at hc
          subst hc
          exact ⟨rfl, by simp [upscaylArgs]⟩
        · intro _
          simp [hec]

/-- Witness for C7 amended: a concrete invocation with exit code 0 and no
model supplied. -/
theorem upscayl_invocation_args_witness :
    ((⟨"bin", ["-i", pathStr ⟨Dir.input, "a.png"⟩, "-o", pathStr ⟨Dir.temp, "a.png"⟩,
        "-s", "4", "-m", "models", "-n", jsOr none "upscayl-standard-4x",
        "-f", "png"]⟩ : SpawnCall).bin = (⟨"bin", "models"⟩ : Config).upscaylBin
      ∧ (⟨"bin", ["-i", pathStr ⟨Dir.input, "a.png"⟩, "-o", pathStr ⟨Dir.temp, "a.png"⟩,
          "-s", "4", "-m", "models", "-n", jsOr none "upscayl-standard-4x",
          "-f", "png"]⟩ : SpawnCall).args
        = ["-i", pathStr ⟨Dir.input, "a.png"⟩, "-o", pathStr ⟨Dir.temp, "a.png"⟩,
           "-s", "4", "-m", (⟨"bin", "models"⟩ : Config).modelsPath,
           "-n", jsOr (Settings.model ⟨true, none⟩) "upscayl-standard-4x", "-f", "png"])
    ∧ ((processImage ⟨true, 0, false, none, none, none⟩ ⟨"bin", "models"⟩ "a.png"
          ⟨true, none⟩ []).sharpSource = some ⟨Dir.temp, "a.png"⟩
        ↔ (⟨true, 0, false, none, none, none⟩ : Env).exitCode = 0) := by
  have h := upscayl_invocation_args ⟨true, 0, false, none, none, none⟩ ⟨"bin", "models"⟩
    "a.png" ⟨true, none⟩ []
  exact ⟨h.1 _ (by decide), h.2 (by decide)⟩

/-- C8: a batch request naming any filename other than all is processed as
the single element of the batch, for every filesystem state — no extension
filter and no existence check is applied to it. -/
theorem postProcess_single_file_unchecked (env : Env) (cfg : Config) (fn : String)
    (s : Settings) (fs0 : FS) (h : fn ≠ "all") :
    (postProcess env cfg fn s fs0).files = [fn] := by
  simp [postProcess, h]

/-- Witness for C8: notes.txt fails the image-extension filter and is not
present in the (empty) input directory, yet is the whole resolved batch. -/
theorem postProcess_single_file_unchecked_witness :
    isImageExt "notes.txt" = false
    ∧ readdirInput [] = []
    ∧ (postProcess ⟨true, 0, false, none, none, none⟩ ⟨"bin", "models"⟩ "notes.txt"
        ⟨false, none⟩ []).files = ["notes.txt"] :=
  ⟨by decide, rfl,
   postProcess_single_file_unchecked ⟨true, 0, false, none, none, none⟩ ⟨"bin", "models"⟩
     "notes.txt" ⟨false, none⟩ [] (by decide)⟩

/-- C9: a configuration write whose body has no path field leaves the
configuration unchanged and still replies success with the current values. -/
theorem postConfig_no_path_frame (cfg : Config) :
    postConfig cfg none = (cfg, ⟨true, cfg.upscaylBin, cfg.modelsPath⟩) := rfl

/-- C10: two input filenames with the same stem map to the identical final
output path; after a successful run on the first and then a successful run
on the second, exactly one output file at that path remains, and the second
run did write it (the later run overwrites the earlier run's output). -/
theorem same_stem_output_overwrite (env1 env2 : Env) (cfg : Config) (f1 f2 : String)
    (s1 s2 : Settings) (fs0 : FS) (hstem : stem f1 = stem f2) (_hne : f1 ≠ f2)
    (h1 : pipelineFailure env1 s1 = none) (h2 : pipelineFailure env2 s2 = none) :
    (⟨Dir.output, stem f1 ++ ".jpg"⟩ : FPath) = ⟨Dir.output, stem f2 ++ ".jpg"⟩
    ∧ fsCount ⟨Dir.output, stem f1 ++ ".jpg"⟩ (processImage env1 cfg f1 s1 fs0).fs = 1
    ∧ fsCount ⟨Dir.output, stem f1 ++ ".jpg"⟩
        (processImage env2 cfg f2 s2 (processImage env1 cfg f1 s1 fs0).fs).fs = 1
    ∧ FsOp.write ⟨Dir.output, stem f1 ++ ".jpg"⟩
        ∈ (processImage env2 cfg f2 s2 (processImage env1 cfg f1 s1 fs0).fs).ops := by
  have e : (⟨Dir.output, stem f1 ++ ".jpg"⟩ : FPath) = ⟨Dir.output, stem f2 ++ ".jpg"⟩ := by
    rw [hstem]
  obtain ⟨_, _, hc1, _⟩ := processImage_success_core env1 cfg f1 s1 fs0 h1
  obtain ⟨_, _, hc2, hops2⟩ :=
    processImage_success_core env2 cfg f2 s2 (processImage env1 cfg f1 s1 fs0).fs h2
  refine ⟨e, hc1, ?_, ?_⟩
  · rw [e]
    exact hc2
  · rw [e]
    obtain ⟨l1, l2, heq, _⟩ := hops2
    rw [heq]
    simp

/-- Witness for C10: a.png then a.jpeg, both runs succeeding. -/
theorem same_stem_output_overwrite_witness :
    (stem "a.png" = stem "a.jpeg" ∧ "a.png" ≠ "a.jpeg")
    ∧ ((⟨Dir.output, stem "a.png" ++ ".jpg"⟩ : FPath) = ⟨Dir.output, stem "a.jpeg" ++ ".jpg"⟩
      ∧ fsCount ⟨Dir.output, stem "a.png" ++ ".jpg"⟩
          (processImage ⟨true, 0, false, none, none, none⟩ ⟨"bin", "models"⟩ "a.png"
            ⟨false, none⟩ [⟨Dir.input, "a.png"⟩, ⟨Dir.input, "a.jpeg"⟩]).fs = 1
      ∧ fsCount ⟨Dir.output, stem "a.png" ++ ".jpg"⟩
          (processImage ⟨true, 0, false, none, none, none⟩ ⟨"bin", "models"⟩ "a.jpeg"
            ⟨false, none⟩
            (processImage ⟨true, 0, false, none, none, none⟩ ⟨"bin", "models"⟩ "a.png"
              ⟨false, none⟩ [⟨Dir.input, "a.png"⟩, ⟨Dir.input, "a.jpeg"⟩]).fs).fs = 1
      ∧ FsOp.write ⟨Dir.output, stem "a.jpeg" ++ ".jpg"⟩
          ∈ (processImage ⟨true, 0, false, none, none, none⟩ ⟨"bin", "models"⟩ "a.jpeg"
              ⟨false, none⟩
              (processImage ⟨true, 0, false, none, none, none⟩ ⟨"bin", "models"⟩ "a.png"
                ⟨false, none⟩ [⟨Dir.input, "a.png"⟩, ⟨Dir.input, "a.jpeg"⟩]).fs).ops) :=
  ⟨⟨by decide, by decide⟩,
   same_stem_output_overwrite ⟨true, 0, false, none, none, none⟩
     ⟨true, 0, false, none, none, none⟩ ⟨"bin", "models"⟩ "a.png" "a.jpeg"
     ⟨false, none⟩ ⟨false, none⟩ [⟨Dir.input, "a.png"⟩, ⟨Dir.input, "a.jpeg"⟩]
     (by decide) (by decide) rfl rfl⟩

end ImgUpscale
